import Mathlib

/-!
Shallow embedding of the `bazaars` classified-ads backend, centred on
`src/repos/ad_repo.rs` (the `PostgresAdRepo` implementation of the `AdRepo`
trait), `src/models/ad.rs` (the `Ad` / `AdContent` records) and the stub HTTP
handlers in `src/bin/main.rs`.

Modelling conventions:
* `BigDecimal` (arbitrary-precision decimal) is modelled as `Rat`: every
  finite binary float and every decimal literal is a rational, and the conversions and
  comparisons of the crate are exact on that range.
* `chrono::NaiveDateTime` is modelled as `Int` (a timestamp on a discrete,
  totally ordered clock).
* Rust `f64` is modelled by `F64`: a finite value carries its exact rational
  value (every finite IEEE-754 double is a rational); NaN and the infinities
  are separate constructors.
* `serde_json::Value` is modelled by `Json` with the constructors the code
  reaches (strings and arrays).
* The Postgres instance is modelled by an explicit `DbState`: the `ads` table
  rows in insertion order, the id sequence, a clock stream sampled by
  `chrono::Utc::now()`, a uuid stream sampled by `uuid::Uuid::new_v4()`, the
  declared server-side cursors, and a connection-health flag (`connOk = false`
  makes every `pool.get()` fail, which the code maps to an error).
* Rust `Result<T, Error>` becomes `Except DbError T`; a Rust panic (`unwrap`
  on `None`) becomes the `none` of an outer `Option` layer.
-/

namespace Bazaars

/-- Model of `serde_json::Value` restricted to the constructors the repository
produces (string scalars and arrays, from `serde_json::to_value(image_ids)`). -/
inductive Json where
  | str : String → Json
  | arr : List Json → Json

/-- Serialization of a `Vec<String>` of image ids by `serde_json::to_value`
(src/repos/ad_repo.rs line 231): a JSON array of JSON strings. For a vector of
strings this serialization is infallible. -/
def serializeIds (ids : List String) : Json :=
  Json.arr (ids.map Json.str)

/-- Deserialization of a JSON value back into a list of strings (inverse
direction of `serde_json::to_value` on a `Vec<String>`). -/
def strListOfJson : List Json → Option (List String)
  | [] => some []
  | Json.str s :: rest => (strListOfJson rest).map (fun l => s :: l)
  | _ => none

/-- Deserialize the `images` column back to the image-id list. -/
def deserializeIds : Json → Option (List String)
  | Json.arr xs => strListOfJson xs
  | _ => none

/-- Model of Rust `f64`: a finite double carries its exact rational value;
NaN and the two infinities are the non-finite values. -/
inductive F64 where
  | finite : Rat → F64
  | nan : F64
  | inf : Bool → F64
deriving DecidableEq

/-- Model of `bigdecimal::BigDecimal::from_f64` (the `FromPrimitive` impl used
at src/repos/ad_repo.rs line 226): the conversion is exact on finite doubles
(every finite double is a binary rational, hence exactly representable as a
decimal) and returns `None` on NaN and the infinities. -/
def BigDecimal.from_f64 : F64 → Option Rat
  | F64.finite q => some q
  | F64.nan => none
  | F64.inf _ => none

/-- The `Ad` record of src/models/ad.rs lines 7-21 (the `ads` table row of
src/db/schema.rs). -/
structure Ad where
  id : Int
  title : String
  description : String
  price : Rat
  status : String
  user_email : String
  user_phone : String
  created_at : Int
  updated_at : Int
  top_ad : Bool
  images : Json

/-- The `AdContent` record of src/models/ad.rs lines 35-42: the create input,
whose `price` field is a Rust `f64`. -/
structure AdContent where
  title : String
  description : String
  price : F64
  user_email : String
  user_phone : String
  top_ad : Bool

/-- The `AdFilter` record of src/repos/ad_repo.rs lines 38-46: six independent
optional predicates. -/
structure AdFilter where
  title_contains : Option String
  description_contains : Option String
  price_lt : Option Rat
  price_gt : Option Rat
  updated_at_lt : Option Int
  updated_at_gt : Option Int

/-- SQL LIKE pattern matching over character lists: `%` matches any (possibly
empty) substring, `_` matches exactly one character, any other pattern
character matches itself. This is the documented semantics of the Postgres
LIKE operator that executes the patterns the repository builds. -/
def likeMatch : List Char → List Char → Bool
  | [], ts => ts.isEmpty
  | c :: ps, ts =>
    if c = '%' then ts.tails.any (likeMatch ps)
    else
      match ts with
      | [] => false
      | t :: ts2 => (c == '_' || c == t) && likeMatch ps ts2

/-- Lowercasing a character list; `ILIKE` is LIKE after case folding. -/
def lowerChars (s : List Char) : List Char :=
  s.map Char.toLower

/-- Model of the Postgres `ILIKE` operator: case-insensitive LIKE. -/
def ilikeMatches (pattern text : String) : Bool :=
  likeMatch (lowerChars pattern.data) (lowerChars text.data)

/-- The pattern the repository builds from a filter term: the Rust
`format!` call wrapping the term in `%` wildcards on both sides
(src/repos/ad_repo.rs lines 76, 80, 186, 190). -/
def likePat (term : String) : String :=
  "%" ++ term ++ "%"

/-- A character list free of the LIKE wildcard characters. -/
def noWild (s : List Char) : Bool :=
  s.all fun c => !(c == '%') && !(c == '_')

/-- Case-insensitive substring containment: the wording of the spec for what
the string-contains clauses must mean ("case-insensitive substring matches"). -/
def containsCI (term text : String) : Bool :=
  (lowerChars text.data).tails.any fun u =>
    List.isPrefixOf (lowerChars term.data) u

/-- A single predicate clause, in the shape the repository can produce: one
constructor per `AdFilter` field (field, operator, bound value). -/
inductive Clause where
  | titleIlike : String → Clause
  | descriptionIlike : String → Clause
  | priceLt : Rat → Clause
  | priceGt : Rat → Clause
  | updatedAtLt : Int → Clause
  | updatedAtGt : Int → Clause
deriving DecidableEq

/-- Evaluation of one clause against a row: `title ILIKE pattern`,
`description ILIKE pattern`, `price < bound`, `price > bound`,
`updated_at < bound`, `updated_at > bound`. -/
def evalClause (c : Clause) (ad : Ad) : Bool :=
  match c with
  | Clause.titleIlike pat => ilikeMatches pat ad.title
  | Clause.descriptionIlike pat => ilikeMatches pat ad.description
  | Clause.priceLt q => decide (ad.price < q)
  | Clause.priceGt q => decide (q < ad.price)
  | Clause.updatedAtLt t => decide (ad.updated_at < t)
  | Clause.updatedAtGt t => decide (t < ad.updated_at)

/-- A positional bind parameter value, as bound by `new_cursor`
(src/repos/ad_repo.rs lines 120-144): SQL `Text`, `Numeric` or `Timestamp`. -/
inductive BindValue where
  | text : String → BindValue
  | numeric : Rat → BindValue
  | timestamp : Int → BindValue
deriving DecidableEq

/-- The bind parameter each clause contributes to the SQL text, in place of
its positional placeholder. -/
def clauseParam : Clause → BindValue
  | Clause.titleIlike pat => BindValue.text pat
  | Clause.descriptionIlike pat => BindValue.text pat
  | Clause.priceLt q => BindValue.numeric q
  | Clause.priceGt q => BindValue.numeric q
  | Clause.updatedAtLt t => BindValue.timestamp t
  | Clause.updatedAtGt t => BindValue.timestamp t

/-- Clause sequence built by `PostgresAdRepo::new_cursor`
(src/repos/ad_repo.rs lines 73-97): starting from the unrestricted query, each
present filter field appends one `filter` clause, in this source order. -/
def new_cursor_clauses (f : AdFilter) : List Clause :=
  let query : List Clause := []
  let query := match f.title_contains with
    | some title_contains => query ++ [Clause.titleIlike (likePat title_contains)]
    | none => query
  let query := match f.description_contains with
    | some description_contains =>
        query ++ [Clause.descriptionIlike (likePat description_contains)]
    | none => query
  let query := match f.price_lt with
    | some filter_price_lt => query ++ [Clause.priceLt filter_price_lt]
    | none => query
  let query := match f.price_gt with
    | some filter_price_gt => query ++ [Clause.priceGt filter_price_gt]
    | none => query
  let query := match f.updated_at_lt with
    | some updated_at_lt => query ++ [Clause.updatedAtLt updated_at_lt]
    | none => query
  let query := match f.updated_at_gt with
    | some updated_at_gt => query ++ [Clause.updatedAtGt updated_at_gt]
    | none => query
  query

/-- Clause sequence built by `PostgresAdRepo::get_page`
(src/repos/ad_repo.rs lines 183-207): the duplicated second copy of the
predicate-assembly code. -/
def get_page_clauses (f : AdFilter) : List Clause :=
  let query : List Clause := []
  let query := match f.title_contains with
    | some title_contains => query ++ [Clause.titleIlike (likePat title_contains)]
    | none => query
  let query := match f.description_contains with
    | some description_contains =>
        query ++ [Clause.descriptionIlike (likePat description_contains)]
    | none => query
  let query := match f.price_lt with
    | some filter_price_lt => query ++ [Clause.priceLt filter_price_lt]
    | none => query
  let query := match f.price_gt with
    | some filter_price_gt => query ++ [Clause.priceGt filter_price_gt]
    | none => query
  let query := match f.updated_at_lt with
    | some updated_at_lt => query ++ [Clause.updatedAtLt updated_at_lt]
    | none => query
  let query := match f.updated_at_gt with
    | some updated_at_gt => query ++ [Clause.updatedAtGt updated_at_gt]
    | none => query
  query

/-- Positional bind values attached by `new_cursor` to the cursor-declaration
SQL text (src/repos/ad_repo.rs lines 120-144), in this source order. -/
def new_cursor_binds (f : AdFilter) : List BindValue :=
  let binds : List BindValue := []
  let binds := match f.title_contains with
    | some title_contains => binds ++ [BindValue.text (likePat title_contains)]
    | none => binds
  let binds := match f.description_contains with
    | some description_contains =>
        binds ++ [BindValue.text (likePat description_contains)]
    | none => binds
  let binds := match f.price_lt with
    | some filter_price_lt => binds ++ [BindValue.numeric filter_price_lt]
    | none => binds
  let binds := match f.price_gt with
    | some filter_price_gt => binds ++ [BindValue.numeric filter_price_gt]
    | none => binds
  let binds := match f.updated_at_lt with
    | some updated_at_lt => binds ++ [BindValue.timestamp updated_at_lt]
    | none => binds
  let binds := match f.updated_at_gt with
    | some updated_at_gt => binds ++ [BindValue.timestamp updated_at_gt]
    | none => binds
  binds

/-- Row predicate of the cursor path: the conjunction (diesel `.filter` chains
conjoin with AND) of the clauses `new_cursor` declares. -/
def evalFilterCursor (f : AdFilter) (ad : Ad) : Bool :=
  (new_cursor_clauses f).all fun c => evalClause c ad

/-- Row predicate of the offset/limit path: the conjunction of the clauses
`get_page` applies. -/
def evalFilterPage (f : AdFilter) (ad : Ad) : Bool :=
  (get_page_clauses f).all fun c => evalClause c ad

/-- Filter semantics written from the wording of the spec, for comparison with the
code-derived predicates: each present field independently imposes its one
condition and all present conditions combine with logical AND. -/
def filterSpec (f : AdFilter) (ad : Ad) : Bool :=
  (f.title_contains.all fun t => ilikeMatches (likePat t) ad.title) &&
  (f.description_contains.all fun d => ilikeMatches (likePat d) ad.description) &&
  (f.price_lt.all fun q => decide (ad.price < q)) &&
  (f.price_gt.all fun q => decide (q < ad.price)) &&
  (f.updated_at_lt.all fun t => decide (ad.updated_at < t)) &&
  (f.updated_at_gt.all fun t => decide (t < ad.updated_at))

/-- Error taxonomy the repository surfaces (pool acquisition failure, diesel
`NotFound` from `get_result`, and a failing `FETCH` on an unknown cursor). -/
inductive DbError where
  | poolError : DbError
  | notFound : DbError
  | cursorFetchError : DbError
deriving DecidableEq

/-- A server-side Postgres cursor: the result set fixed at declaration time
and the cursor position. Following the Postgres FETCH documentation,
`pos = 0` means the cursor is positioned before the first row (freshly
declared), `pos = k` with `1 ≤ k ≤ rows.length` means it is positioned on the
k-th row (the last row returned), and `pos = rows.length + 1` means it is
positioned after the last row (a fetch ran past the end). -/
structure CursorState where
  rows : List Ad
  pos : Nat

/-- The modelled Postgres instance plus the process environment: table rows in
insertion order, the id sequence, the sampled clock and uuid streams, the
declared holdable cursors (name, fixed result set and position), and the
connection-health flag. -/
structure DbState where
  rows : List Ad
  nextId : Int
  clock : Nat → Int
  clockPos : Nat
  uuids : Nat → String
  uuidPos : Nat
  cursors : List (String × CursorState)
  connOk : Bool

/-- Database well-formedness: `id` is a primary key (pairwise distinct) and
the id sequence is ahead of every stored row. -/
def DbState.wf (st : DbState) : Prop :=
  st.rows.Pairwise (fun a b => a.id ≠ b.id) ∧ ∀ r ∈ st.rows, r.id < st.nextId

instance (st : DbState) : Decidable st.wf := by
  unfold DbState.wf; infer_instance

/-- Cursor name generation (src/repos/ad_repo.rs lines 105-108): `c_` followed
by the first ten characters of the hyphen-stripped uuid. -/
def cursorName (uuid : String) : String :=
  "c_" ++ (uuid.replace "-" "").take 10

/-- `PostgresAdRepo::create` (src/repos/ad_repo.rs lines 221-243). The insert
values are evaluated in source order: the price is converted by
`BigDecimal::from_f64(ad.price).unwrap()` (a panic, modelled as the outer
`none`, when the conversion yields `None`), `status` is the literal
`"active"`, `images` is the serialized id list, and `created_at` and
`updated_at` are two separate `chrono::Utc::now().naive_utc()` samples; only
then is a pooled connection acquired and the row inserted and returned.
`createRow` is the row the insert statement materializes: `created_at` and
`updated_at` are the two successive clock samples. -/
def createRow (st : DbState) (ad : AdContent) (price : Rat)
    (image_ids : List String) : Ad :=
  { id := st.nextId, title := ad.title, description := ad.description,
    price := price, status := "active", user_email := ad.user_email,
    user_phone := ad.user_phone, created_at := st.clock st.clockPos,
    updated_at := st.clock (st.clockPos + 1), top_ad := ad.top_ad,
    images := serializeIds image_ids }

/-- The create operation itself; see `createRow` for the inserted row. -/
def PostgresAdRepo.create (st : DbState) (ad : AdContent) (image_ids : List String) :
    Option (Except DbError (Ad × DbState)) :=
  match BigDecimal.from_f64 ad.price with
  | none => none
  | some price =>
    if st.connOk = false then some (Except.error DbError.poolError)
    else
      some (Except.ok (createRow st ad price image_ids,
        { st with rows := st.rows ++ [createRow st ad price image_ids],
                  nextId := st.nextId + 1, clockPos := st.clockPos + 2 }))

/-- `PostgresAdRepo::get_by_id` (src/repos/ad_repo.rs lines 163-175):
`find(id).first().optional()` — the first row whose primary key matches, or
`none` (not an error) when the table has no such row. -/
def PostgresAdRepo.get_by_id (st : DbState) (id : Int) : Except DbError (Option Ad) :=
  if st.connOk = false then Except.error DbError.poolError
  else Except.ok (st.rows.find? fun r => r.id == id)

/-- `PostgresAdRepo::get_page` (src/repos/ad_repo.rs lines 177-219): the
filtered query followed by `OFFSET offset LIMIT per_page`. -/
def PostgresAdRepo.get_page (st : DbState) (offset per_page : Nat) (f : AdFilter) :
    Except DbError (List Ad) :=
  if st.connOk = false then Except.error DbError.poolError
  else Except.ok (((st.rows.filter (evalFilterPage f)).drop offset).take per_page)

/-- `PostgresAdRepo::new_cursor` (src/repos/ad_repo.rs lines 72-151): acquires
a connection, generates the cursor name from a fresh uuid, and declares a
`WITH HOLD` cursor whose fixed result set is the rows satisfying the clause
sequence of `new_cursor_clauses`; returns the generated name. -/
def PostgresAdRepo.new_cursor (st : DbState) (f : AdFilter) :
    Except DbError (String × DbState) :=
  if st.connOk = false then Except.error DbError.poolError
  else
    let name := cursorName (st.uuids st.uuidPos)
    Except.ok (name,
      { st with uuidPos := st.uuidPos + 1,
                cursors := st.cursors ++
                  [(name, { rows := st.rows.filter (evalFilterCursor f),
                            pos := 0 })] })

/-- The rows `FETCH FORWARD 0` returns: per the Postgres FETCH documentation
a zero count re-fetches the current row, so the result is the single row the
cursor is positioned on, and empty when there is no current row (cursor
before the first row or after the last). -/
def currentRowFetch (cs : CursorState) : List Ad :=
  if cs.pos = 0 then [] else (cs.rows.drop (cs.pos - 1)).take 1

/-- Postgres `FETCH FORWARD count` semantics on one cursor: a positive count
returns the next `count` rows (fewer at end-of-set) and leaves the cursor
positioned on the last row returned, or after the last row when the fetch
runs past the end; a zero count re-fetches the current row and does not move
the cursor. -/
def fetchForward (cs : CursorState) (count : Nat) : List Ad × CursorState :=
  if count = 0 then (currentRowFetch cs, cs)
  else
    ((cs.rows.drop cs.pos).take count,
      { cs with pos := if cs.pos + count ≤ cs.rows.length then cs.pos + count
                       else cs.rows.length + 1 })

/-- `PostgresAdRepo::fetch_from_cursor` (src/repos/ad_repo.rs lines 153-161):
executes `FETCH FORWARD count FROM name` where `count` has the Rust type `u8`
(hence `Fin 256`); the fetch follows `fetchForward`, and a `FETCH` on an
unknown cursor name is a database error. -/
def PostgresAdRepo.fetch_from_cursor (st : DbState) (name : String) (count : Fin 256) :
    Except DbError (List Ad × DbState) :=
  if st.connOk = false then Except.error DbError.poolError
  else
    match st.cursors.find? (fun c => c.fst == name) with
    | none => Except.error DbError.cursorFetchError
    | some c =>
      Except.ok ((fetchForward c.snd count.val).fst,
        { st with cursors := st.cursors.map fun d =>
            if d.fst == name then (d.fst, (fetchForward d.snd count.val).snd)
            else d })

/-- The column set the derived diesel `AsChangeset` applies in
`update(ads::table.find(id)).set(&ad)`: every column of `Ad` except the
primary key `id`, which a derived `AsChangeset` always skips — the stored row
keeps its own id. -/
def applyChangeset (r : Ad) (ad : Ad) : Ad :=
  { ad with id := r.id }

/-- `PostgresAdRepo::update` (src/repos/ad_repo.rs lines 245-256): update the
row found by primary key, setting every non-key column from `ad`;
`get_result` surfaces diesel `NotFound` when no row matched. -/
def PostgresAdRepo.update (st : DbState) (id : Int) (ad : Ad) :
    Except DbError (Ad × DbState) :=
  if st.connOk = false then Except.error DbError.poolError
  else
    match st.rows.find? (fun r => r.id == id) with
    | none => Except.error DbError.notFound
    | some r =>
      Except.ok (applyChangeset r ad,
        { st with rows := st.rows.map fun row =>
            if row.id == id then applyChangeset row ad else row })

/-- The table after removing the rows the primary key matches. -/
def deleteRows (st : DbState) (id : Int) : DbState :=
  { st with rows := st.rows.filter fun r => !(r.id == id) }

/-- `PostgresAdRepo::delete` (src/repos/ad_repo.rs lines 258-268):
`delete(ads::table.find(id)).execute(..)` returns the number of rows removed
(no error when nothing matched). -/
def PostgresAdRepo.delete (st : DbState) (id : Int) : Except DbError (Nat × DbState) :=
  if st.connOk = false then Except.error DbError.poolError
  else
    Except.ok (st.rows.countP (fun r => r.id == id), deleteRows st id)

/-- The multipart payload of `AdRequest` (src/models/ad.rs lines 23-33),
restricted to the fields the modelled handlers could inspect. -/
structure AdRequest where
  title : String
  description : String
  price : F64
  user_email : String
  user_phone : String
  top_ad : Bool
  image_ids : List String

/-- The HTTP-visible application state: the database shared by the repositories. -/
structure AppState where
  db : DbState

/-- Handler for `PUT /ads/:id` (src/bin/main.rs lines 182-189): a stub that
ignores the path id and the payload and returns `StatusCode::OK` (200)
without touching the repository. -/
def update_ad (id : String) (payload : AdRequest) (state : AppState) :
    Nat × AppState :=
  (200, state)

/-- Handler for `DELETE /ads/:id` (src/bin/main.rs lines 191-194): a stub that
ignores the path id and returns `StatusCode::NO_CONTENT` (204) without
touching the repository. -/
def delete_ad (id : String) (state : AppState) : Nat × AppState :=
  (204, state)

/-! Concrete example values (used by witnesses and counterexamples). -/

/-- A concrete stored ad. -/
def exAd : Ad :=
  { id := 1, title := "Test Ad", description := "Test Description",
    price := 100, status := "active", user_email := "test@test.com",
    user_phone := "1234567890", created_at := 0, updated_at := 0,
    top_ad := false, images := serializeIds [] }

/-- A concrete filter (title-contains only, as in the repository test). -/
def exFilter : AdFilter :=
  { title_contains := some "test", description_contains := none,
    price_lt := none, price_gt := none,
    updated_at_lt := none, updated_at_gt := none }

/-- A concrete healthy database state whose clock advances by one per
sample. -/
def exState : DbState :=
  { rows := [exAd], nextId := 2, clock := fun n => Int.ofNat n, clockPos := 0,
    uuids := fun _ => "0123456789abcdef", uuidPos := 0,
    cursors := [("c_0123456789", { rows := [exAd], pos := 0 })],
    connOk := true }

/-- A concrete create input with a finite price. -/
def exContent : AdContent :=
  { title := "Test Ad", description := "Test Description",
    price := F64.finite 100, user_email := "test@test.com",
    user_phone := "1234567890", top_ad := false }

/-- A create input whose price is the floating-point NaN. -/
def nanContent : AdContent :=
  { exContent with price := F64.nan }

/-- An ad whose title matches the wildcard pattern built from the term
"a%b" without containing that term as a substring. -/
def cexAd : Ad :=
  { exAd with title := "aXb" }

/-- A filter whose title term contains the `%` wildcard. -/
def cexFilter : AdFilter :=
  { title_contains := some "a%b", description_contains := none,
    price_lt := none, price_gt := none,
    updated_at_lt := none, updated_at_gt := none }

/-- Observer: the row a successful create returns, if any. -/
def createdRowOf (st : DbState) (ad : AdContent) (ids : List String) :
    Option Ad :=
  match PostgresAdRepo.create st ad ids with
  | some (Except.ok (row, _)) => some row
  | _ => none

/-- Observer: the row list a successful cursor fetch returns, if any. -/
def fetchedRowsOf (st : DbState) (name : String) (count : Fin 256) :
    Option (List Ad) :=
  match PostgresAdRepo.fetch_from_cursor st name count with
  | Except.ok (rows, _) => some rows
  | Except.error _ => none

/-- The image-id list of the round-trip witness. -/
def exIds : List String := ["img1", "img2"]

/-- The row the witness create materializes. -/
def exRow : Ad := createRow exState exContent 100 exIds

/-- The state after the witness create. -/
def exState2 : DbState :=
  { exState with rows := exState.rows ++ [exRow],
                 nextId := exState.nextId + 1,
                 clockPos := exState.clockPos + 2 }

/-! Helper lemmas. -/

theorem toLower_pct : Char.toLower '%' = '%' := rfl

theorem likeMatch_pct (ps ts : List Char) :
    likeMatch ('%' :: ps) ts = ts.tails.any (likeMatch ps) := rfl

theorem likeMatch_cons_nil (c : Char) (ps : List Char) (hc : ¬ c = '%') :
    likeMatch (c :: ps) [] = false := by
  rw [likeMatch.eq_def]
  simp [hc]

theorem likeMatch_cons_cons (c : Char) (ps : List Char) (t : Char)
    (ts : List Char) (hc : ¬ c = '%') :
    likeMatch (c :: ps) (t :: ts) = ((c == '_' || c == t) && likeMatch ps ts) := by
  rw [likeMatch.eq_def]
  simp [hc]

theorem likeMatch_pct_iff (ps ts : List Char) :
    likeMatch ('%' :: ps) ts = true ↔ ∃ u, u <:+ ts ∧ likeMatch ps u = true := by
  rw [likeMatch_pct]
  simp [List.any_eq_true, List.mem_tails]

theorem likeMatch_prefix_iff (s : List Char) : ∀ ts, noWild s = true →
    (likeMatch (s ++ ['%']) ts = true ↔ s <+: ts) := by
  induction s with
  | nil =>
    intro ts _
    rw [List.nil_append]
    have h1 : likeMatch ['%'] ts = true :=
      (likeMatch_pct_iff [] ts).mpr ⟨[], List.nil_suffix, rfl⟩
    simp [h1, List.nil_prefix]
  | cons c s ih =>
    intro ts hw
    simp only [noWild, List.all_cons, Bool.and_eq_true, Bool.not_eq_true',
      beq_eq_false_iff_ne, ne_eq] at hw
    obtain ⟨⟨hcp, hcu⟩, hw2⟩ := hw
    have hw2' : noWild s = true := hw2
    rw [List.cons_append]
    cases ts with
    | nil =>
      rw [likeMatch_cons_nil _ _ hcp]
      simp
    | cons t ts2 =>
      rw [likeMatch_cons_cons _ _ _ _ hcp]
      have hu : (c == '_') = false := by simp [hcu]
      simp only [hu, Bool.false_or, Bool.and_eq_true, beq_iff_eq,
        List.cons_prefix_cons]
      exact and_congr_right fun _ => ih ts2 hw2'

theorem likeMatch_wrap_iff (s ts : List Char) (h : noWild s = true) :
    likeMatch ('%' :: (s ++ ['%'])) ts = true ↔ s <:+: ts := by
  rw [likeMatch_pct_iff]
  constructor
  · rintro ⟨u, hu, hm⟩
    exact List.infix_iff_prefix_suffix.mpr ⟨u, (likeMatch_prefix_iff s u h).mp hm, hu⟩
  · intro hi
    obtain ⟨u, h1, h2⟩ := List.infix_iff_prefix_suffix.mp hi
    exact ⟨u, h2, (likeMatch_prefix_iff s u h).mpr h1⟩

theorem containsCI_iff (term text : String) :
    containsCI term text = true ↔ lowerChars term.data <:+: lowerChars text.data := by
  unfold containsCI
  simp only [List.any_eq_true, List.mem_tails, List.isPrefixOf_iff_prefix,
    List.infix_iff_prefix_suffix]
  constructor
  · rintro ⟨u, h1, h2⟩
    exact ⟨u, h2, h1⟩
  · rintro ⟨u, h1, h2⟩
    exact ⟨u, h2, h1⟩

theorem lower_likePat (term : String) :
    lowerChars (likePat term).data = '%' :: (lowerChars term.data ++ ['%']) := by
  simp [likePat, lowerChars, String.data_append, toLower_pct]

theorem ilike_contains_eq (term text : String)
    (h : noWild (lowerChars term.data) = true) :
    ilikeMatches (likePat term) text = containsCI term text := by
  rw [Bool.eq_iff_iff]
  unfold ilikeMatches
  rw [lower_likePat, likeMatch_wrap_iff _ _ h, containsCI_iff]

theorem find?_id_unique (rows : List Ad)
    (hpw : rows.Pairwise fun a b => a.id ≠ b.id)
    (row : Ad) (hmem : row ∈ rows) (i : Int) (hid : row.id = i) :
    (rows.find? fun r => r.id == i) = some row := by
  induction rows with
  | nil => cases hmem
  | cons h t ih =>
    rw [List.pairwise_cons] at hpw
    obtain ⟨hhd, htl⟩ := hpw
    rcases List.mem_cons.mp hmem with rfl | hmem2
    · simp [List.find?, hid]
    · have hne : (h.id == i) = false := by
        simp only [beq_eq_false_iff_ne, ne_eq]
        exact fun he => (hhd row hmem2) (he.trans hid.symm)
      rw [List.find?_cons_of_neg _ (by simp [hne])]
      exact ih htl hmem2

theorem countP_id_le_one (rows : List Ad)
    (hpw : rows.Pairwise fun a b => a.id ≠ b.id) (i : Int) :
    rows.countP (fun r => r.id == i) ≤ 1 := by
  induction rows with
  | nil => simp [List.countP_nil]
  | cons h t ih =>
    rw [List.pairwise_cons] at hpw
    obtain ⟨hhd, htl⟩ := hpw
    by_cases hc : h.id = i
    · rw [List.countP_cons_of_pos _ _ (by simp [hc])]
      have hz : t.countP (fun r => r.id == i) = 0 :=
        List.countP_eq_zero.mpr fun a ha => by
          simp only [beq_iff_eq]
          exact fun he => (hhd a ha) (hc.trans he.symm)
      omega
    · rw [List.countP_cons_of_neg _ _ (by simp [hc])]
      exact ih htl

theorem strListOfJson_map (l : List String) :
    strListOfJson (l.map Json.str) = some l := by
  induction l with
  | nil => rfl
  | cons h t ih => simp [strListOfJson, ih]

theorem deserialize_serialize (ids : List String) :
    deserializeIds (serializeIds ids) = some ids := by
  simp [deserializeIds, serializeIds, strListOfJson_map]

theorem clauses_agree_aux (f : AdFilter) :
    new_cursor_clauses f = get_page_clauses f := rfl

theorem evalFilterPage_eq_filterSpec (f : AdFilter) (ad : Ad) :
    evalFilterPage f ad = filterSpec f ad := by
  obtain ⟨t, d, pl, pg, ul, ug⟩ := f
  cases t <;> cases d <;> cases pl <;> cases pg <;> cases ul <;> cases ug <;>
    simp [evalFilterPage, get_page_clauses, filterSpec, evalClause,
      Bool.and_assoc]

/-! Claim theorems. -/

/-- C1 counterexample: the description in the claim of the string-contains clauses
as "case-insensitive substring matches" fails when the filter term itself
contains an SQL wildcard. For the filter term "a%b" the clause both paths
build matches the title "aXb", yet "a%b" is not a case-insensitive substring
of "aXb". -/
theorem C1_ilike_not_substring :
    evalFilterPage cexFilter cexAd = true
    ∧ containsCI "a%b" cexAd.title = false := by
  constructor <;> decide

/-- C1 (amended): for every `AdFilter`, `new_cursor` and `get_page` build
exactly the same clause list, in the fixed source order title-contains,
description-contains, price-less-than, price-greater-than,
updated-at-less-than, updated-at-greater-than, each present field yielding
exactly one clause; the conjunction (AND) of those clauses is the same row
predicate on both paths, so the two paths filter identical row sets; the
cursor path binds its positional parameters in exactly the clause order; and
the string-contains clauses are case-insensitive wildcard pattern matches on
the `%`-wrapped term, which coincide with case-insensitive substring matching
whenever the lowercased term contains no `%` or `_` wildcard. -/
theorem C1_filter_paths_agree (f : AdFilter) (st : DbState) (ad : Ad)
    (term text : String) (h : noWild (lowerChars term.data) = true) :
    new_cursor_clauses f = get_page_clauses f
    ∧ new_cursor_binds f = (new_cursor_clauses f).map clauseParam
    ∧ get_page_clauses f =
        (f.title_contains.map fun t => Clause.titleIlike (likePat t)).toList ++
        (f.description_contains.map fun d =>
          Clause.descriptionIlike (likePat d)).toList ++
        (f.price_lt.map Clause.priceLt).toList ++
        (f.price_gt.map Clause.priceGt).toList ++
        (f.updated_at_lt.map Clause.updatedAtLt).toList ++
        (f.updated_at_gt.map Clause.updatedAtGt).toList
    ∧ evalFilterCursor f ad = evalFilterPage f ad
    ∧ evalFilterPage f ad = filterSpec f ad
    ∧ st.rows.filter (evalFilterCursor f) = st.rows.filter (evalFilterPage f)
    ∧ ilikeMatches (likePat term) text = containsCI term text := by
  refine ⟨clauses_agree_aux f, ?_, ?_, rfl,
    evalFilterPage_eq_filterSpec f ad, rfl, ilike_contains_eq term text h⟩
  · obtain ⟨t, d, pl, pg, ul, ug⟩ := f
    cases t <;> cases d <;> cases pl <;> cases pg <;> cases ul <;> cases ug <;> rfl
  · obtain ⟨t, d, pl, pg, ul, ug⟩ := f
    cases t <;> cases d <;> cases pl <;> cases pg <;> cases ul <;> cases ug <;> rfl

/-- C1 witness: the amended theorem evaluated at a concrete filter, row and
wildcard-free term. -/
theorem C1_filter_paths_agree_witness :
    noWild (lowerChars ("test" : String).data) = true
    ∧ (new_cursor_clauses exFilter = get_page_clauses exFilter
        ∧ new_cursor_binds exFilter
            = (new_cursor_clauses exFilter).map clauseParam
        ∧ get_page_clauses exFilter =
            (exFilter.title_contains.map fun t =>
              Clause.titleIlike (likePat t)).toList ++
            (exFilter.description_contains.map fun d =>
              Clause.descriptionIlike (likePat d)).toList ++
            (exFilter.price_lt.map Clause.priceLt).toList ++
            (exFilter.price_gt.map Clause.priceGt).toList ++
            (exFilter.updated_at_lt.map Clause.updatedAtLt).toList ++
            (exFilter.updated_at_gt.map Clause.updatedAtGt).toList
        ∧ evalFilterCursor exFilter exAd = evalFilterPage exFilter exAd
        ∧ evalFilterPage exFilter exAd = filterSpec exFilter exAd
        ∧ exState.rows.filter (evalFilterCursor exFilter)
            = exState.rows.filter (evalFilterPage exFilter)
        ∧ ilikeMatches (likePat "test") "My Test Ad"
            = containsCI "test" "My Test Ad") :=
  ⟨by decide,
    C1_filter_paths_agree exFilter exState exAd "test" "My Test Ad" (by decide)⟩

/-- C2 counterexample: the claim that a created row has
`created_at = updated_at` fails on the code, which samples
`chrono::Utc::now().naive_utc()` twice (src/repos/ad_repo.rs lines 232-233):
on a state whose clock advances between the two samples, the successfully
created row has `created_at = 0` but `updated_at = 1`. -/
theorem C2_two_clock_samples :
    ∃ row, createdRowOf exState exContent [] = some row
      ∧ row.created_at ≠ row.updated_at :=
  ⟨_, rfl, by decide⟩

/-- C2 (amended): a successful create inserts a row whose status is
`"active"`, whose `created_at` and `updated_at` are the two successive UTC
clock samples taken at insert time — equal whenever the clock does not
advance between the two samples — and whose images column is the serialized
image-id list; it returns the fully materialized inserted row, including the
generated id and both timestamps, and appends exactly that row to the
table. -/
theorem C2_create_inserts (st : DbState) (ad : AdContent) (ids : List String)
    (q : Rat) (hp : BigDecimal.from_f64 ad.price = some q)
    (hc : st.connOk = true) :
    ∃ row st2,
      PostgresAdRepo.create st ad ids = some (Except.ok (row, st2))
      ∧ row.status = "active"
      ∧ row.created_at = st.clock st.clockPos
      ∧ row.updated_at = st.clock (st.clockPos + 1)
      ∧ (st.clock st.clockPos = st.clock (st.clockPos + 1) →
          row.created_at = row.updated_at)
      ∧ row.images = serializeIds ids
      ∧ row.id = st.nextId
      ∧ st2.rows = st.rows ++ [row] := by
  unfold PostgresAdRepo.create
  rw [hp]
  simp only [hc, Bool.true_eq_false, if_false]
  exact ⟨_, _, rfl, rfl, rfl, rfl, fun hh => hh, rfl, rfl, rfl⟩

/-- C2 witness: the amended theorem at a concrete state and content. -/
theorem C2_create_inserts_witness :
    BigDecimal.from_f64 exContent.price = some 100
    ∧ exState.connOk = true
    ∧ ∃ row st2,
        PostgresAdRepo.create exState exContent [] = some (Except.ok (row, st2))
        ∧ row.status = "active"
        ∧ row.created_at = exState.clock exState.clockPos
        ∧ row.updated_at = exState.clock (exState.clockPos + 1)
        ∧ (exState.clock exState.clockPos = exState.clock (exState.clockPos + 1) →
            row.created_at = row.updated_at)
        ∧ row.images = serializeIds []
        ∧ row.id = exState.nextId
        ∧ st2.rows = exState.rows ++ [row] :=
  ⟨rfl, rfl, C2_create_inserts exState exContent [] 100 rfl rfl⟩

/-- C3: round-trip — whenever create succeeds, `get_by_id` on the returned
row id finds exactly the returned row, whose title, description, price,
user_email, user_phone and top_ad equal the fields of the supplied content (the
price being the exact decimal image of the supplied float) and whose images
column deserializes back to exactly the supplied image-id list in order. -/
theorem C3_create_get_roundtrip (st : DbState) (ad : AdContent)
    (ids : List String) (row : Ad) (st2 : DbState) (hw : st.wf)
    (h : PostgresAdRepo.create st ad ids = some (Except.ok (row, st2))) :
    PostgresAdRepo.get_by_id st2 row.id = Except.ok (some row)
    ∧ row.title = ad.title
    ∧ row.description = ad.description
    ∧ BigDecimal.from_f64 ad.price = some row.price
    ∧ row.user_email = ad.user_email
    ∧ row.user_phone = ad.user_phone
    ∧ row.top_ad = ad.top_ad
    ∧ deserializeIds row.images = some ids := by
  unfold PostgresAdRepo.create at h
  cases hq : BigDecimal.from_f64 ad.price with
  | none => rw [hq] at h; exact absurd h (by simp)
  | some q =>
    rw [hq] at h
    by_cases hc : st.connOk = false
    · simp [hc] at h
    · simp [hc] at h
      obtain ⟨hrow, hst2⟩ := h
      subst hrow
      subst hst2
      refine ⟨?_, rfl, rfl, rfl, rfl, rfl, rfl, deserialize_serialize ids⟩
      unfold PostgresAdRepo.get_by_id
      simp only [hc, if_false, Except.ok.injEq]
      rw [List.find?_append]
      have hnone :
          (st.rows.find? fun r => r.id == (createRow st ad q ids).id) = none := by
        rw [List.find?_eq_none]
        intro r hr
        simp only [createRow, beq_iff_eq]
        exact fun he => absurd he (Int.ne_of_lt (hw.2 r hr))
      rw [hnone]
      simp [List.find?, createRow]

/-- C3 witness: the round-trip theorem at a concrete state, content and
image-id list. -/
theorem C3_create_get_roundtrip_witness :
    exState.wf
    ∧ PostgresAdRepo.create exState exContent exIds
        = some (Except.ok (exRow, exState2))
    ∧ (PostgresAdRepo.get_by_id exState2 exRow.id = Except.ok (some exRow)
        ∧ exRow.title = exContent.title
        ∧ exRow.description = exContent.description
        ∧ BigDecimal.from_f64 exContent.price = some exRow.price
        ∧ exRow.user_email = exContent.user_email
        ∧ exRow.user_phone = exContent.user_phone
        ∧ exRow.top_ad = exContent.top_ad
        ∧ deserializeIds exRow.images = some exIds) :=
  ⟨by decide, rfl,
    C3_create_get_roundtrip exState exContent exIds exRow exState2 (by decide) rfl⟩

/-- C4 counterexample: the create pipeline is not float-free — the create
input carries its price as a Rust `f64`, so the floating-point-only value NaN
can be supplied as a price, on which create stores nothing and panics (the
`unwrap` of `BigDecimal::from_f64`): with a NaN price there is no persisted
exact-decimal value at all. -/
theorem C4_price_is_float_cex :
    nanContent.price = F64.nan
    ∧ BigDecimal.from_f64 nanContent.price = none
    ∧ PostgresAdRepo.create exState nanContent [] = none :=
  ⟨rfl, rfl, rfl⟩

/-- C4 (amended): the persisted price column is an exact decimal, but the
create input carries the price as a 64-bit float which
`BigDecimal::from_f64` converts; for every finite supplied float the stored
decimal equals the exact rational value of the float, with no rounding drift in
the conversion between the create input and the persisted numeric value. -/
theorem C4_price_exact (st : DbState) (ad : AdContent) (ids : List String)
    (q : Rat) (hp : ad.price = F64.finite q) (hc : st.connOk = true) :
    ∃ row st2, PostgresAdRepo.create st ad ids = some (Except.ok (row, st2))
      ∧ row.price = q
      ∧ BigDecimal.from_f64 ad.price = some row.price := by
  unfold PostgresAdRepo.create
  rw [hp]
  simp only [BigDecimal.from_f64, hc, Bool.true_eq_false, if_false]
  exact ⟨_, _, rfl, rfl, rfl⟩

/-- C4 witness: the amended theorem at a concrete finite price. -/
theorem C4_price_exact_witness :
    exContent.price = F64.finite 100
    ∧ exState.connOk = true
    ∧ ∃ row st2,
        PostgresAdRepo.create exState exContent [] = some (Except.ok (row, st2))
        ∧ row.price = 100
        ∧ BigDecimal.from_f64 exContent.price = some row.price :=
  ⟨rfl, rfl, C4_price_exact exState exContent [] 100 rfl rfl⟩

/-- C5 counterexample: `fetch_from_cursor` with `count = 0` does not always
return an empty list. The program sends the literal statement
`FETCH FORWARD 0 FROM name` (src/repos/ad_repo.rs line 154), and a zero-count
forward fetch re-fetches the current row: after fetching one row from the
example cursor (which leaves the cursor positioned on that row), a fetch with
`count = 0` succeeds and returns that one row — a non-empty list. -/
theorem C5_forward_zero_cex :
    ∃ st2, PostgresAdRepo.fetch_from_cursor exState "c_0123456789" (1 : Fin 256)
        = Except.ok ([exAd], st2)
      ∧ fetchedRowsOf st2 "c_0123456789" (0 : Fin 256) = some [exAd] :=
  ⟨_, rfl, rfl⟩

/-- C5 (amended): the fetch count has the Rust type `u8`, so every accepted
count lies in 0-255; a fetch on a known cursor never errors, whatever the
count; a positive-count fetch returns the next rows of the cursor, at most
`count` of them, and at or past end-of-cursor (fewer than `count` rows
remaining, or none) it returns exactly the remaining rows as a normal,
non-error partial or empty result; a fetch with `count = 0` re-fetches the
current row without error — the empty list when the cursor has no current
row (freshly declared, or driven past its last row), and the single current
row otherwise. -/
theorem C5_fetch_forward (st : DbState) (name : String) (count : Fin 256)
    (cs : CursorState) (hc : st.connOk = true)
    (hf : (st.cursors.find? fun c => c.fst == name) = some (name, cs)) :
    ∃ out st2, PostgresAdRepo.fetch_from_cursor st name count
        = Except.ok (out, st2)
      ∧ count.val ≤ 255
      ∧ (0 < count.val →
          out = (cs.rows.drop cs.pos).take count.val ∧ out.length ≤ count.val)
      ∧ (0 < count.val → (cs.rows.drop cs.pos).length ≤ count.val →
          out = cs.rows.drop cs.pos)
      ∧ (count.val = 0 →
          out = currentRowFetch cs ∧ out.length ≤ 1
          ∧ (cs.pos = 0 → out = [])
          ∧ (cs.rows.length < cs.pos → out = [])) := by
  unfold PostgresAdRepo.fetch_from_cursor
  simp only [hc, Bool.true_eq_false, if_false, hf]
  refine ⟨_, _, rfl, Nat.lt_succ_iff.mp count.isLt, ?_, ?_, ?_⟩
  · intro hpos
    unfold fetchForward
    rw [if_neg (Nat.pos_iff_ne_zero.mp hpos)]
    exact ⟨rfl, by rw [List.length_take]; exact Nat.min_le_left _ _⟩
  · intro hpos hlen
    unfold fetchForward
    rw [if_neg (Nat.pos_iff_ne_zero.mp hpos)]
    exact List.take_of_length_le hlen
  · intro h0
    unfold fetchForward
    rw [if_pos h0]
    refine ⟨rfl, ?_, ?_, ?_⟩
    · unfold currentRowFetch
      by_cases hp : cs.pos = 0
      · rw [if_pos hp]
        exact Nat.zero_le 1
      · rw [if_neg hp, List.length_take]
        exact Nat.min_le_left _ _
    · intro hp
      unfold currentRowFetch
      rw [if_pos hp]
    · intro hlt
      unfold currentRowFetch
      have hp : ¬ cs.pos = 0 := by omega
      rw [if_neg hp, List.drop_eq_nil_of_le (by omega)]
      rfl

/-- C5 witness: on the example cursor (one row, freshly declared), a fetch of
two is an at-end partial fetch returning the single remaining row, and a
zero-count fetch on the fresh cursor returns the empty list — both without
error. -/
theorem C5_fetch_forward_witness :
    exState.connOk = true
    ∧ (exState.cursors.find? fun c => c.fst == "c_0123456789")
        = some ("c_0123456789", { rows := [exAd], pos := 0 })
    ∧ (∃ out st2,
        PostgresAdRepo.fetch_from_cursor exState "c_0123456789" (2 : Fin 256)
          = Except.ok (out, st2)
        ∧ (2 : Fin 256).val ≤ 255
        ∧ (0 < (2 : Fin 256).val →
            out = (([exAd] : List Ad).drop 0).take (2 : Fin 256).val
            ∧ out.length ≤ (2 : Fin 256).val)
        ∧ (0 < (2 : Fin 256).val →
            (([exAd] : List Ad).drop 0).length ≤ (2 : Fin 256).val →
            out = ([exAd] : List Ad).drop 0)
        ∧ ((2 : Fin 256).val = 0 →
            out = currentRowFetch { rows := [exAd], pos := 0 }
            ∧ out.length ≤ 1
            ∧ ((0 : Nat) = 0 → out = [])
            ∧ (([exAd] : List Ad).length < 0 → out = [])))
    ∧ (∃ out st2,
        PostgresAdRepo.fetch_from_cursor exState "c_0123456789" (0 : Fin 256)
          = Except.ok (out, st2)
        ∧ (0 : Fin 256).val ≤ 255
        ∧ (0 < (0 : Fin 256).val →
            out = (([exAd] : List Ad).drop 0).take (0 : Fin 256).val
            ∧ out.length ≤ (0 : Fin 256).val)
        ∧ (0 < (0 : Fin 256).val →
            (([exAd] : List Ad).drop 0).length ≤ (0 : Fin 256).val →
            out = ([exAd] : List Ad).drop 0)
        ∧ ((0 : Fin 256).val = 0 →
            out = currentRowFetch { rows := [exAd], pos := 0 }
            ∧ out.length ≤ 1
            ∧ ((0 : Nat) = 0 → out = [])
            ∧ (([exAd] : List Ad).length < 0 → out = []))) :=
  ⟨rfl, rfl,
    C5_fetch_forward exState "c_0123456789" (2 : Fin 256)
      { rows := [exAd], pos := 0 } rfl rfl,
    C5_fetch_forward exState "c_0123456789" (0 : Fin 256)
      { rows := [exAd], pos := 0 } rfl rfl⟩

/-- C6: `delete` returns the number of removed rows, which on a well-formed
table (primary-key-unique ids) is always 0 or 1; deleting an absent id is a
successful 0-count result, not an error; and deleting an existing id twice
returns count 1 and then count 0, the second call succeeding. -/
theorem C6_delete_idempotent (st : DbState) (i : Int) (hw : st.wf)
    (hc : st.connOk = true) :
    (∃ n st2, PostgresAdRepo.delete st i = Except.ok (n, st2) ∧ n ≤ 1)
    ∧ ((∀ r ∈ st.rows, r.id ≠ i) →
        ∃ st2, PostgresAdRepo.delete st i = Except.ok (0, st2))
    ∧ (∀ row ∈ st.rows, row.id = i →
        ∃ st2 st3, PostgresAdRepo.delete st i = Except.ok (1, st2)
          ∧ PostgresAdRepo.delete st2 i = Except.ok (0, st3)) := by
  have hdel : ∀ s : DbState, s.connOk = true → PostgresAdRepo.delete s i
      = Except.ok (s.rows.countP (fun r => r.id == i), deleteRows s i) := by
    intro s hcs
    unfold PostgresAdRepo.delete
    simp [hcs]
  refine ⟨⟨_, _, hdel st hc, countP_id_le_one st.rows hw.1 i⟩, ?_, ?_⟩
  · intro hnone
    have hz : st.rows.countP (fun r => r.id == i) = 0 :=
      List.countP_eq_zero.mpr fun a ha => by simpa using hnone a ha
    exact ⟨deleteRows st i, by rw [hdel st hc, hz]⟩
  · intro row hrow hid
    have hle := countP_id_le_one st.rows hw.1 i
    have hpos : 0 < st.rows.countP (fun r => r.id == i) :=
      List.countP_pos_iff.mpr ⟨row, hrow, by simp [hid]⟩
    have h1 : st.rows.countP (fun r => r.id == i) = 1 := by omega
    have hz2 : ((deleteRows st i).rows.countP fun r => r.id == i) = 0 :=
      List.countP_eq_zero.mpr fun a ha => by
        have h2 := (List.mem_filter.mp ha).2
        simpa using h2
    exact ⟨deleteRows st i, deleteRows (deleteRows st i) i,
      by rw [hdel st hc, h1], by rw [hdel (deleteRows st i) hc, hz2]⟩

/-- C6 witness: deleting the one stored row of the example state twice. -/
theorem C6_delete_idempotent_witness :
    exState.wf
    ∧ exState.connOk = true
    ∧ exAd ∈ exState.rows
    ∧ exAd.id = 1
    ∧ ∃ st2 st3, PostgresAdRepo.delete exState 1 = Except.ok (1, st2)
        ∧ PostgresAdRepo.delete st2 1 = Except.ok (0, st3) :=
  ⟨by decide, rfl, List.mem_cons_self exAd [], rfl,
    (C6_delete_idempotent exState 1 (by decide) rfl).2.2 exAd
      (List.mem_cons_self exAd []) rfl⟩

/-- C7: `get_by_id` on a healthy connection returns exactly the first (on a
well-formed table: the unique) row matching the id, and returns `none` — not
an error — when no row matches; it returns an `Error` only when the
connection cannot be obtained (the connectivity/storage fault of the
model). -/
theorem C7_get_by_id_spec (st : DbState) (i : Int) :
    (st.connOk = true →
      PostgresAdRepo.get_by_id st i
        = Except.ok (st.rows.find? fun r => r.id == i))
    ∧ (st.connOk = true → (∀ r ∈ st.rows, r.id ≠ i) →
        PostgresAdRepo.get_by_id st i = Except.ok none)
    ∧ (∀ e, PostgresAdRepo.get_by_id st i = Except.error e →
        st.connOk = false)
    ∧ (st.connOk = true → st.wf → ∀ row ∈ st.rows, row.id = i →
        PostgresAdRepo.get_by_id st i = Except.ok (some row)) := by
  unfold PostgresAdRepo.get_by_id
  refine ⟨fun hc => by simp [hc], fun hc hnone => ?_, fun e he => ?_,
    fun hc hw row hrow hid => ?_⟩
  · simp only [hc, Bool.true_eq_false, if_false, Except.ok.injEq]
    exact List.find?_eq_none.mpr fun r hr => by simpa using hnone r hr
  · cases hcs : st.connOk with
    | false => rfl
    | true => simp [hcs] at he
  · simp only [hc, Bool.true_eq_false, if_false, Except.ok.injEq]
    exact find?_id_unique st.rows hw.1 row hrow i hid

/-- C7 witness: the specification at the example state, at the stored id 1
and at the absent id 7. -/
theorem C7_get_by_id_spec_witness :
    exState.connOk = true
    ∧ exState.wf
    ∧ exAd ∈ exState.rows
    ∧ exAd.id = 1
    ∧ PostgresAdRepo.get_by_id exState 1 = Except.ok (some exAd)
    ∧ (∀ r ∈ exState.rows, r.id ≠ 7)
    ∧ PostgresAdRepo.get_by_id exState 7 = Except.ok none :=
  ⟨rfl, by decide, List.mem_cons_self exAd [], rfl,
    (C7_get_by_id_spec exState 1).2.2.2 rfl (by decide) exAd
      (List.mem_cons_self exAd []) rfl,
    by decide,
    (C7_get_by_id_spec exState 7).2.1 rfl (by decide)⟩

/-- C8: `update` is a full-row replace by id — every settable (non-primary-
key) column of the supplied record is applied to the matching row — it fails
with `NotFound` when no row with that id exists, and it never changes any
row id: the returned record keeps the id of the stored row it replaced
(the derived diesel `AsChangeset` skips the primary key), and the stored id
column is unchanged. -/
theorem C8_update_replace (st : DbState) (i : Int) (ad : Ad) (hw : st.wf)
    (hc : st.connOk = true) :
    ((∀ r ∈ st.rows, r.id ≠ i) →
      PostgresAdRepo.update st i ad = Except.error DbError.notFound)
    ∧ (∀ row ∈ st.rows, row.id = i →
        ∃ st2, PostgresAdRepo.update st i ad
            = Except.ok (applyChangeset row ad, st2)
          ∧ (applyChangeset row ad).id = row.id
          ∧ (applyChangeset row ad).title = ad.title
          ∧ (applyChangeset row ad).description = ad.description
          ∧ (applyChangeset row ad).price = ad.price
          ∧ (applyChangeset row ad).status = ad.status
          ∧ (applyChangeset row ad).user_email = ad.user_email
          ∧ (applyChangeset row ad).user_phone = ad.user_phone
          ∧ (applyChangeset row ad).created_at = ad.created_at
          ∧ (applyChangeset row ad).updated_at = ad.updated_at
          ∧ (applyChangeset row ad).top_ad = ad.top_ad
          ∧ (applyChangeset row ad).images = ad.images
          ∧ st2.rows.map Ad.id = st.rows.map Ad.id) := by
  unfold PostgresAdRepo.update
  simp only [hc, Bool.true_eq_false, if_false]
  constructor
  · intro hnone
    rw [List.find?_eq_none.mpr fun r hr => by simpa using hnone r hr]
  · intro row hrow hid
    rw [find?_id_unique st.rows hw.1 row hrow i hid]
    refine ⟨_, rfl, rfl, rfl, rfl, rfl, rfl, rfl, rfl, rfl, rfl, rfl, rfl, ?_⟩
    rw [List.map_map]
    exact List.map_congr_left fun a ha => by
      by_cases h2 : a.id = i
      · simp [h2, applyChangeset]
      · simp [h2]

/-- C8 witness: replacing row 1 of the example state with a fully different
record keeps the stored id. -/
theorem C8_update_replace_witness :
    exState.wf
    ∧ exState.connOk = true
    ∧ exAd ∈ exState.rows
    ∧ exAd.id = 1
    ∧ ∃ st2, PostgresAdRepo.update exState 1 cexAd
        = Except.ok (applyChangeset exAd cexAd, st2)
      ∧ (applyChangeset exAd cexAd).id = exAd.id
      ∧ (applyChangeset exAd cexAd).title = cexAd.title
      ∧ (applyChangeset exAd cexAd).description = cexAd.description
      ∧ (applyChangeset exAd cexAd).price = cexAd.price
      ∧ (applyChangeset exAd cexAd).status = cexAd.status
      ∧ (applyChangeset exAd cexAd).user_email = cexAd.user_email
      ∧ (applyChangeset exAd cexAd).user_phone = cexAd.user_phone
      ∧ (applyChangeset exAd cexAd).created_at = cexAd.created_at
      ∧ (applyChangeset exAd cexAd).updated_at = cexAd.updated_at
      ∧ (applyChangeset exAd cexAd).top_ad = cexAd.top_ad
      ∧ (applyChangeset exAd cexAd).images = cexAd.images
      ∧ st2.rows.map Ad.id = exState.rows.map Ad.id :=
  ⟨by decide, rfl, List.mem_cons_self exAd [], rfl,
    (C8_update_replace exState 1 cexAd (by decide) rfl).2 exAd
      (List.mem_cons_self exAd []) rfl⟩

/-- C9: the HTTP handlers for `PUT /ads/:id` and `DELETE /ads/:id` are no-op
stubs: on every request they return a success (2xx) status — 200 and 204
respectively — and return the application state unchanged, invoking no
repository mutation. -/
theorem C9_stub_handlers (i : String) (payload : AdRequest) (s : AppState) :
    update_ad i payload s = (200, s)
    ∧ delete_ad i s = (204, s)
    ∧ 200 ≤ (update_ad i payload s).fst
    ∧ (update_ad i payload s).fst < 300
    ∧ 200 ≤ (delete_ad i s).fst
    ∧ (delete_ad i s).fst < 300
    ∧ (update_ad i payload s).snd = s
    ∧ (delete_ad i s).snd = s :=
  ⟨rfl, rfl, by show (200 : Nat) ≤ 200; decide, by show (200 : Nat) < 300; decide,
    by show (200 : Nat) ≤ 204; decide, by show (204 : Nat) < 300; decide, rfl, rfl⟩

/-- C10: `create` is partial in its price input: a NaN or infinite price
makes it panic (the `unwrap` of the `None` that `BigDecimal::from_f64`
returns, modelled as the outer `none`) rather than return an error result,
while for every finite price the conversion succeeds and create never
panics. -/
theorem C10_create_price_partiality (st : DbState) (ad : AdContent)
    (ids : List String) :
    (ad.price = F64.nan → PostgresAdRepo.create st ad ids = none)
    ∧ (∀ b, ad.price = F64.inf b → PostgresAdRepo.create st ad ids = none)
    ∧ (∀ q, ad.price = F64.finite q →
        PostgresAdRepo.create st ad ids ≠ none) := by
  unfold PostgresAdRepo.create
  refine ⟨fun h => by rw [h]; rfl, fun b h => by rw [h]; rfl, fun q h => ?_⟩
  rw [h]
  simp only [BigDecimal.from_f64]
  by_cases hc : st.connOk = false <;> simp [hc]

/-- C10 witness: the NaN price panics, the finite price does not. -/
theorem C10_create_price_partiality_witness :
    nanContent.price = F64.nan
    ∧ PostgresAdRepo.create exState nanContent [] = none
    ∧ exContent.price = F64.finite 100
    ∧ PostgresAdRepo.create exState exContent [] ≠ none :=
  ⟨rfl, (C10_create_price_partiality exState nanContent []).1 rfl, rfl,
    (C10_create_price_partiality exState exContent []).2.2 100 rfl⟩

end Bazaars
